import Mathlib

/-!
Verification development for the hybrid-retrieval RAG agent
(`app/retriever.py`, `app/agent.py`, `app/llm.py`, `app/models.py`).

Text is modelled as `String` (Python `str`), character work happens on
`String.data : List Char`.  Machine floats (`numpy.float64`) are idealised
as real numbers `ℝ`; the transcendental pieces (`math.log`, `math.sqrt`)
therefore make the scoring definitions noncomputable, while everything the
witnesses must evaluate (tokenizer, sanitizer, answer composition) is kept
kernel-computable via structural recursion.
-/

namespace RagSpec

/-! ### Python string helpers -/

/-- Characters stripped by Python `str.rstrip()` / `str.strip()` (ASCII
whitespace; the Unicode extras are irrelevant to this corpus). -/
def isPySpace (c : Char) : Bool :=
  c = ' ' || c = '\t' || c = '\n' || c = '\r' || c = '\x0b' || c = '\x0c'

/-- Python `str.rstrip()` on the character list of a string. -/
def pyRstrip (l : List Char) : List Char :=
  (l.reverse.dropWhile isPySpace).reverse

/-- Python `str.strip()` on the character list of a string. -/
def pyStrip (l : List Char) : List Char :=
  (pyRstrip l).dropWhile isPySpace

/-- Python `sep.join(parts)`. -/
def joinWith (sep : String) : List String → String
  | [] => ""
  | [x] => x
  | x :: y :: xs => x ++ sep ++ joinWith sep (y :: xs)

/-- Bool test for `pat` occurring as a contiguous substring of a character
list (the existence question answered by `re.finditer` over a literal
pattern). -/
def hasSub (pat : List Char) : List Char → Bool
  | [] => pat.isEmpty
  | c :: cs => pat.isPrefixOf (c :: cs) || hasSub pat cs

/-! ### Tokenizer (`retriever.tokenize`)

`tokenize` lowercases the text and returns the matches of the regex
`[a-z0-9]+(?:'[a-z0-9]+)?` in order: a maximal run of lowercase
alphanumerics, optionally followed by an apostrophe and a second such run.
The scanner below reproduces the left-to-right, leftmost-longest behaviour
of `re.findall`; fuel (the remaining length) makes it structurally
recursive and hence kernel-computable. -/

/-- A character matched by the regex class `[a-z0-9]`. -/
def isTokChar (c : Char) : Bool :=
  ('a' ≤ c && c ≤ 'z') || ('0' ≤ c && c ≤ '9')

/-- ASCII lowercasing, as applied by `text.lower()` before matching (the
regex only ever matches ASCII, so the Unicode-only differences of
Python's `lower` are invisible to the token stream). -/
def lowerAscii (c : Char) : Char := c.toLower

/-- Scanner for `[a-z0-9]+(?:'[a-z0-9]+)?`: at each position, either emit
the maximal token starting there and resume after it, or skip one
character.  `fuel` bounds the recursion by the remaining length. -/
def tokScanAux : Nat → List Char → List (List Char)
  | 0, _ => []
  | _ + 1, [] => []
  | fuel + 1, c :: cs =>
    if isTokChar c then
      let run1 := c :: cs.takeWhile isTokChar
      let rest1 := cs.dropWhile isTokChar
      match rest1 with
      | '\'' :: d :: ds =>
        if isTokChar d then
          let run2 := d :: ds.takeWhile isTokChar
          let rest2 := ds.dropWhile isTokChar
          (run1 ++ '\'' :: run2) :: tokScanAux fuel rest2
        else
          run1 :: tokScanAux fuel rest1
      | _ => run1 :: tokScanAux fuel rest1
    else
      tokScanAux fuel cs

/-- Embeds `retriever.tokenize`: lowercase, then `re.findall` of the token regex. -/
def tokenize (s : String) : List String :=
  (tokScanAux s.data.length (s.data.map lowerAscii)).map String.mk

/-! ### Citation sanitizer (`agent._clean_citations`)

The Python function first records every match of `\[([^\]]+)\]` over the
*original* text (`re.finditer`), then deletes the not-allowed ones by
splicing `text[:start] + text[end:]` on the *mutating* string — the spans
of later matches are not shifted after earlier deletions.  The embedding
reproduces exactly that, including the stale spans.  (The Python code also
collects `keep_spans`, which it never reads again; the embedding drops
it.) -/

/-- All matches of `\[([^\]]+)\]`: start offset, end offset (exclusive)
and the inner text.  A `[` immediately followed by `]` matches nothing
and scanning resumes one character later, exactly as `re.finditer`
does.  `fuel` bounds the recursion by the remaining length. -/
def scanBracketsAux : Nat → List Char → Nat → List (Nat × Nat × String)
  | 0, _, _ => []
  | _ + 1, [], _ => []
  | fuel + 1, c :: cs, pos =>
    if c = '[' then
      let inner := cs.takeWhile (fun d => d ≠ ']')
      match cs.dropWhile (fun d => d ≠ ']') with
      | ']' :: tail =>
        match inner with
        | [] => scanBracketsAux fuel cs (pos + 1)
        | _ :: _ =>
          (pos, pos + inner.length + 2, String.mk inner) ::
            scanBracketsAux fuel tail (pos + inner.length + 2)
      | _ => scanBracketsAux fuel cs (pos + 1)
    else
      scanBracketsAux fuel cs (pos + 1)

/-- Matches of `\[([^\]]+)\]` over a character list, leftmost first. -/
def scanBrackets (l : List Char) : List (Nat × Nat × String) :=
  scanBracketsAux l.length l 0

/-- The deletion loop of `_clean_citations`: for every recorded match, if
the inner text is not an allowed tag, splice it out of the *current*
text at the *originally recorded* offsets (`text[:m.start()] +
text[m.end():]`). -/
def deleteInvalid (data : List Char) (allowed_tags : List String) : List Char :=
  (scanBrackets data).foldl
    (fun t m => if m.2.2 ∈ allowed_tags then t else t.take m.1 ++ t.drop m.2.1)
    data

/-- The literal `[tag]` rendering `f"[{t}]"`. -/
def bracketTag (tag : String) : String := "[" ++ tag ++ "]"

/-- The post-deletion check
`re.finditer(r"\[(?:" + "|".join(map(re.escape, allowed_tags)) + ")\]", text)`:
does the text still contain some allowed tag in brackets?  (With an empty
tag list the Python pattern degenerates to `\[(?:)\]`, i.e. a literal
`[]`; `answer()` never calls it that way, but the embedding keeps the
case.) -/
def anyAllowedLeft (allowed_tags : List String) (t : List Char) : Bool :=
  match allowed_tags with
  | [] => hasSub ('[' :: [']']) t
  | _ :: _ => allowed_tags.any (fun tag => hasSub (bracketTag tag).data t)

/-- Embeds `agent._clean_citations(text, allowed_tags, fallback_tags)`. -/
def clean_citations (text : String) (allowed_tags fallback_tags : List String) :
    String :=
  if text = "" then text
  else
    let t := deleteInvalid text.data allowed_tags
    if anyAllowedLeft allowed_tags t then String.mk t
    else
      match fallback_tags with
      | [] => String.mk t
      | _ :: _ =>
        String.mk (pyRstrip t) ++ " " ++
          joinWith " " (fallback_tags.map bracketTag)

/-! ### Data model (`app/models.py`) -/

/-- Embeds `models.Citation`. -/
structure Citation where
  source : String
  start : Int
  end_ : Int
  deriving DecidableEq

/-- Embeds `models.Metrics` (the free-form `extra` diagnostics dict is outside the
verified surface and omitted). -/
structure Metrics where
  latency_ms : ℚ
  retrieved_k : Nat
  route : String
  deriving DecidableEq

/-- Embeds `models.AnswerResponse`. -/
structure AnswerResponse where
  answer : String
  citations : List Citation
  sources : List String
  metrics : Metrics
  deriving DecidableEq

/-- One indexed chunk, a line of `data/index/corpus.jsonl` as loaded by
`HybridRetriever._load`. -/
structure Chunk where
  source : String
  start : Int
  end_ : Int
  text : String
  deriving DecidableEq

instance : Inhabited Chunk := ⟨⟨"", 0, 0, ""⟩⟩

/-- A `search` result dict: chunk fields plus the three scores. -/
structure ScoredChunk where
  source : String
  start : Int
  end_ : Int
  text : String
  score : ℝ
  bm25 : ℝ
  tfidf : ℝ

/-- Failure of the text-generation HTTP call (`requests` timeout or
transport exception, or the `HTTPError` raised by
`resp.raise_for_status()` on a non-2xx answer in `llm._ollama_chat`). -/
inductive GenError where
  | timeout
  | transport
  | httpStatus (code : Nat)
  deriving DecidableEq

/-! ### LLM layer (`app/llm.py`) -/

/-- Embeds `llm.is_configured()`: local mode (`ollama`, the default provider) is
always considered available; hosted OpenAI needs an API key (and the
installed package, folded into `hasKey`). -/
def is_configured (provider : String) (hasKey : Bool) : Bool :=
  if provider = "ollama" then true else hasKey

/-- Embeds `llm.synthesize_answer` in the default (ollama) mode, given the outcome
of the HTTP call: `_ollama_chat` either raises (left to the caller) or
returns the JSON's `message.content`, which may be absent; the result is
`(out or "").strip()`.  The hosted-OpenAI branch is the same shape. -/
def synthesize_answer (genOutcome : Except GenError (Option String)) :
    Except GenError String :=
  genOutcome.map (fun o => String.mk (pyStrip (o.getD "").data))

/-! ### Answer composition (`agent.answer`, retrieval path, lines 62–97) -/

/-- The `f"{r['source']}@{r['start']}:{r['end']}"` citation tag. -/
def tagOf (r : ScoredChunk) : String :=
  r.source ++ "@" ++ toString r.start ++ ":" ++ toString r.end_

/-- Strict insertion of a string into a strictly-ascending list, dropping
duplicates.  Folding it over a list yields exactly Python's
`sorted(set(xs))`: the distinct elements in ascending lexicographic
(code-point) order. -/
def insertSource (a : String) : List String → List String
  | [] => [a]
  | b :: rest =>
    if a.data < b.data then a :: b :: rest
    else if a = b then b :: rest
    else b :: insertSource a rest

/-- Embeds `sorted({r["source"] for r in results})`. -/
def sortedSources (results : List ScoredChunk) : List String :=
  (results.map (·.source)).foldr insertSource []

/-- The default system prompt of `agent._load_system_prompt` when
`prompts/answer_system.txt` is absent (when present, the stripped file
contents are used instead; the composition below is parametric in the
prompt either way). -/
def fallbackSystemPrompt : String :=
  "Answer using provided context only; cite chunks like [doc@start:end]."

/-- The retrieval-path tail of `agent.answer` (everything after
`retriever.search`): the no-results answer, the LLM branch with the
citation sanitizer (`fallback_tags=allowed_tags[:3]`), and the extractive
branch.  An exception from `llm.synthesize_answer` is not caught anywhere
in `answer`, so it propagates; the embedding mirrors that with `Except`.
The `latency_ms` recorded here is the literal `0.0` of the source (the
HTTP layer overwrites it later). -/
def composeResponse (systemPrompt : String) (llmConfigured : Bool)
    (genOutcome : Except GenError (Option String))
    (results : List ScoredChunk) : Except GenError AnswerResponse :=
  match results with
  | [] =>
    .ok ⟨"I couldn't find relevant context in the provided documents.",
         [], [], ⟨0, 0, "rag"⟩⟩
  | _ :: _ =>
    if llmConfigured then
      match synthesize_answer genOutcome with
      | .error e => .error e
      | .ok raw =>
        let allowed_tags := results.map tagOf
        let answer_text := clean_citations raw allowed_tags (allowed_tags.take 3)
        .ok ⟨answer_text,
             results.map (fun r => ⟨r.source, r.start, r.end_⟩),
             sortedSources results,
             ⟨0, results.length, "rag+llm"⟩⟩
    else
      let citation_strs := results.map (fun r => bracketTag (tagOf r))
      let composed := joinWith "\n\n" (results.map (·.text))
      let answer_text :=
        systemPrompt ++ "\n\n" ++ composed ++ "\n\n" ++ joinWith " " citation_strs
      .ok ⟨answer_text,
           results.map (fun r => ⟨r.source, r.start, r.end_⟩),
           sortedSources results,
           ⟨0, results.length, "rag"⟩⟩

/-- Projection used to talk about the answer text of a composed response
(`""` on a propagated generation failure). -/
def answerOf : Except GenError AnswerResponse → String
  | .ok r => r.answer
  | .error _ => ""

instance {ε α : Type} [DecidableEq ε] [DecidableEq α] :
    DecidableEq (Except ε α)
  | .error e, .error f =>
    if h : e = f then .isTrue (by rw [h]) else .isFalse (by simp [h])
  | .error _, .ok _ => .isFalse (by simp)
  | .ok _, .error _ => .isFalse (by simp)
  | .ok a, .ok b =>
    if h : a = b then .isTrue (by rw [h]) else .isFalse (by simp [h])

/-- Modelled from the spec: the extractive composition as §4.6 words it —
"concatenating the evidence chunks' texts (in retrieval rank order)
separated by blank lines, followed by every evidence citation tag
rendered inline" — for comparison with what the code actually builds. -/
def specExtractive (results : List ScoredChunk) : String :=
  joinWith "\n\n" (results.map (·.text)) ++ "\n\n" ++
    joinWith " " (results.map (fun r => bracketTag (tagOf r)))

/-! ### Corpus statistics (`HybridRetriever._build_tfidf`)

`tokdocs` is `self.tokenized_corpus`, the per-chunk token lists. -/

/-- Document frequency of a term: in how many chunks it occurs
(`df_counter` built from `set(toks)` per document). -/
def docFreq (tokdocs : List (List String)) (t : String) : Nat :=
  tokdocs.countP (fun toks => decide (t ∈ toks))

/-- Embeds `n_docs = max(1, len(self.tokenized_corpus))`. -/
def nDocs (tokdocs : List (List String)) : Nat :=
  max 1 tokdocs.length

/-- The vocabulary: the keys of `df_counter`, i.e. every term occurring in
some chunk.  (Python's key order is hash/insertion order; only
membership and the per-term values are ever used downstream.) -/
def vocabList (tokdocs : List (List String)) : List String :=
  ((tokdocs.map List.dedup).flatten).dedup

/-- The smoothed IDF of `_build_tfidf`:
`idf(t) = log((n_docs + 1)/(df + 1)) + 1.0`. -/
noncomputable def idf (tokdocs : List (List String)) (t : String) : ℝ :=
  Real.log ((nDocs tokdocs + 1) / (docFreq tokdocs t + 1)) + 1

/-- Raw TF-IDF weight of a term in a token list:
`(freq / len(toks)) * idf[term]`. -/
noncomputable def tfidfRaw (tokdocs : List (List String)) (toks : List String)
    (t : String) : ℝ :=
  ((toks.count t : ℝ) / (toks.length : ℝ)) * idf tokdocs t

/-- The terms a TF-IDF vector is supported on: the distinct tokens of the
text that pass the `if term in self.idf` vocabulary check. -/
def tfKeys (tokdocs : List (List String)) (toks : List String) : List String :=
  toks.dedup.filter (fun t => decide (0 < docFreq tokdocs t))

/-- The L2 norm used for vector normalisation,
`math.sqrt(sum(v * v ...)) or 1.0` (a zero norm becomes `1.0`). -/
noncomputable def tfidfNorm (tokdocs : List (List String))
    (toks : List String) : ℝ :=
  let s := Real.sqrt (((tfKeys tokdocs toks).map
    (fun t => tfidfRaw tokdocs toks t ^ 2)).sum)
  if s = 0 then 1 else s

/-- The normalised sparse TF-IDF vector of a token list, as a total
function that is zero off its support.  Serves both `doc_tfidf` entries
and `_tfidf_query` (whose `if not toks: return {}` early-out coincides
with the empty support). -/
noncomputable def tfidfVec (tokdocs : List (List String)) (toks : List String)
    (t : String) : ℝ :=
  if t ∈ tfKeys tokdocs toks then tfidfRaw tokdocs toks t / tfidfNorm tokdocs toks
  else 0

/-- Embeds `_cosine_sparse`: the dot product of two sparse vectors.  The source
iterates over the smaller dict and looks terms up in the other; summing
over any list containing the first vector's support gives the same
value, since absent terms contribute zero. -/
noncomputable def cosineSparse (keys : List String) (a b : String → ℝ) : ℝ :=
  (keys.map (fun t => a t * b t)).sum

/-! ### BM25 (`rank_bm25.BM25Okapi`, constructed with its defaults
`k1=1.5`, `b=0.75`, `epsilon=0.25` by `HybridRetriever._load`) -/

/-- Okapi `k1`. -/
noncomputable def bmK1 : ℝ := 3 / 2

/-- Okapi `b`. -/
noncomputable def bmB : ℝ := 3 / 4

/-- Okapi `epsilon`. -/
noncomputable def bmEps : ℝ := 1 / 4

/-- Average document length `avgdl = num_doc / corpus_size`. -/
noncomputable def avgdl (tokdocs : List (List String)) : ℝ :=
  ((tokdocs.map List.length).sum : ℝ) / (tokdocs.length : ℝ)

/-- The raw Okapi IDF,
`log(corpus_size - freq + 0.5) - log(freq + 0.5)`. -/
noncomputable def okapiIdfRaw (tokdocs : List (List String)) (w : String) : ℝ :=
  Real.log ((tokdocs.length : ℝ) - (docFreq tokdocs w : ℝ) + 1 / 2) -
    Real.log ((docFreq tokdocs w : ℝ) + 1 / 2)

/-- Embeds `average_idf`, the mean raw IDF over the vocabulary. -/
noncomputable def okapiAvgIdf (tokdocs : List (List String)) : ℝ :=
  ((vocabList tokdocs).map (okapiIdfRaw tokdocs)).sum /
    ((vocabList tokdocs).length : ℝ)

/-- The stored Okapi IDF: negative raw values are replaced by
`eps = epsilon * average_idf`. -/
noncomputable def okapiIdf (tokdocs : List (List String)) (w : String) : ℝ :=
  if okapiIdfRaw tokdocs w < 0 then bmEps * okapiAvgIdf tokdocs
  else okapiIdfRaw tokdocs w

/-- Embeds `self.idf.get(q) or 0` in `get_scores`: zero for out-of-vocabulary
terms (and Python's falsy `0.0` maps to the same `0`). -/
noncomputable def okapiIdfOr0 (tokdocs : List (List String)) (w : String) : ℝ :=
  if 0 < docFreq tokdocs w then okapiIdf tokdocs w else 0

/-- One document's Okapi score for a query,
`sum over q of idf(q) * (f*(k1+1) / (f + k1*(1 - b + b*dl/avgdl)))`. -/
noncomputable def okapiScoreDoc (tokdocs : List (List String))
    (qtoks doc : List String) : ℝ :=
  (qtoks.map (fun q =>
    okapiIdfOr0 tokdocs q *
      ((doc.count q : ℝ) * (bmK1 + 1) /
        ((doc.count q : ℝ) + bmK1 * (1 - bmB + bmB * (doc.length : ℝ) / avgdl tokdocs))))).sum

/-- Embeds `bm25.get_scores(query)`: the score vector over all documents. -/
noncomputable def okapiScores (tokdocs : List (List String))
    (qtoks : List String) : List ℝ :=
  tokdocs.map (okapiScoreDoc tokdocs qtoks)

/-! ### Ranking (`HybridRetriever.search`) -/

/-- Embeds `np.min` of a nonempty list (the `[]` case never arises: `normalize`
returns the empty array before taking a min). -/
noncomputable def listMin : List ℝ → ℝ
  | [] => 0
  | [x] => x
  | x :: y :: xs => min x (listMin (y :: xs))

/-- Embeds `np.max` of a nonempty list. -/
noncomputable def listMax : List ℝ → ℝ
  | [] => 0
  | [x] => x
  | x :: y :: xs => max x (listMax (y :: xs))

/-- The `1e-9` guard of `normalize` (the float literal idealised as the
exact rational). -/
noncomputable def epsNorm : ℝ := 1 / 1000000000

/-- The inner `normalize` of `search`: min-max scaling, with a flat score
vector (`mx - mn < 1e-9`) collapsed to all zeros. -/
noncomputable def normalize (arr : List ℝ) : List ℝ :=
  match arr with
  | [] => []
  | _ :: _ =>
    if listMax arr - listMin arr < epsNorm then List.replicate arr.length 0
    else arr.map (fun s => (s - listMin arr) / (listMax arr - listMin arr))

/-- Stable descending insertion of index `i` (keys looked up in `scores`):
`i` goes in front of the first index whose key is `≤` its own, so equal
keys keep ascending index order. -/
noncomputable def insertByDesc (scores : List ℝ) (i : Nat) :
    List Nat → List Nat
  | [] => [i]
  | j :: js =>
    if scores.getD j 0 ≤ scores.getD i 0 then i :: j :: js
    else j :: insertByDesc scores i js

/-- Model of `np.argsort(-hybrid)`: the indices `0..n-1` ordered by
descending score.  numpy's default quicksort leaves the relative order
of equal keys unspecified; this model fixes ties in ascending index
order (the point at issue for the stability claim, which is therefore
not settled from this definition). -/
noncomputable def argsortDesc (scores : List ℝ) : List Nat :=
  (List.range scores.length).foldr (fun i acc => insertByDesc scores i acc) []

/-- Python/numpy `l[:k]` for an `int` bound: a nonnegative `k` keeps the
first `k` entries, a negative `k` drops the last `|k|`. -/
def pySliceTo (k : Int) (l : List α) : List α :=
  if 0 ≤ k then l.take k.toNat else l.take (l.length - (-k).toNat)

/-- Embeds `HybridRetriever.search(query, k)` over a corpus loaded in insertion
order, with fusion weight `alpha` (the agent constructs the retriever
with `alpha=0.65`).  On an empty corpus (`if not self.chunks`) the
result is empty; otherwise both signals are computed, min-max
normalised, fused as `alpha * bm25 + (1 - alpha) * tfidf`, ranked by
`np.argsort(-hybrid)[:k]` and materialised.  (`self.bm25` is present
exactly when the corpus is nonempty, so the `np.zeros` fallback for a
missing BM25 index is unreachable here.) -/
noncomputable def search (chunks : List Chunk) (alpha : ℝ) (query : String)
    (k : Int) : List ScoredChunk :=
  match chunks with
  | [] => []
  | _ :: _ =>
    let tokdocs := chunks.map (fun c => tokenize c.text)
    let qtoks := tokenize query
    let bm25_scores := okapiScores tokdocs qtoks
    let q_vec := tfidfVec tokdocs qtoks
    let tfidf_scores := tokdocs.map
      (fun doctoks => cosineSparse (tfKeys tokdocs qtoks) q_vec (tfidfVec tokdocs doctoks))
    let bm25_n := normalize bm25_scores
    let tfidf_n := normalize tfidf_scores
    let hybrid := List.zipWith (fun bn tn => alpha * bn + (1 - alpha) * tn) bm25_n tfidf_n
    let idxs := pySliceTo k (argsortDesc hybrid)
    idxs.map (fun i =>
      { source := (chunks.getD i default).source
        start := (chunks.getD i default).start
        end_ := (chunks.getD i default).end_
        text := (chunks.getD i default).text
        score := hybrid.getD i 0
        bm25 := bm25_n.getD i 0
        tfidf := tfidf_n.getD i 0 })

/-! ### Concrete instances used by witnesses and counterexamples -/

/-- The single chunk of the spec's end-to-end scenario. -/
def spyChunk : Chunk :=
  ⟨"q2_letter.html", 0, 20, "SPY rallied in Q2 amid macro tailwinds"⟩

/-- The spec's end-to-end query. -/
def spyQuery : String := "Did the letter mention SPY?"

/-- What `search` actually returns for the single-chunk corpus: the chunk
with all three scores `0.0` (min-max normalisation of a one-element
array takes the flat branch). -/
def spyScored : ScoredChunk :=
  ⟨"q2_letter.html", 0, 20, "SPY rallied in Q2 amid macro tailwinds", 0, 0, 0⟩

/-- A small two-chunk corpus. -/
def chunkA : Chunk := ⟨"a.txt", 0, 5, "alpha"⟩

/-- Second chunk of the small corpus. -/
def chunkB : Chunk := ⟨"b.txt", 0, 4, "beta"⟩

/-- A scored chunk for composition witnesses. -/
def wChunkA : ScoredChunk := ⟨"a.txt", 0, 2, "ta", 0, 0, 0⟩

/-- A second scored chunk for composition witnesses. -/
def wChunkB : ScoredChunk := ⟨"b.txt", 3, 7, "tb", 0, 0, 0⟩

/-- A third scored chunk sharing `wChunkB`'s source, to exercise source
deduplication. -/
def wChunkB2 : ScoredChunk := ⟨"b.txt", 8, 9, "tc", 0, 0, 0⟩

/-! ## Theorems -/

/-! ### Sorted-source helper lemmas -/

theorem strLt_iff {a b : String} : a.data < b.data ↔ a < b :=
  String.lt_iff_toList_lt.symm

theorem mem_insertSource {x a : String} {l : List String} :
    x ∈ insertSource a l ↔ x = a ∨ x ∈ l := by
  induction l with
  | nil => simp [insertSource]
  | cons b rest ih =>
    by_cases hab : a.data < b.data
    · simp [insertSource, hab]
    · by_cases heq : a = b
      · subst heq
        have hins : insertSource a (a :: rest) = a :: rest := by
          simp [insertSource, hab]
        rw [hins, List.mem_cons]
        tauto
      · simp only [insertSource, if_neg hab, if_neg heq, List.mem_cons, ih]
        tauto

theorem pairwise_insertSource {a : String} {l : List String}
    (h : l.Pairwise (· < ·)) : (insertSource a l).Pairwise (· < ·) := by
  induction l with
  | nil => simp [insertSource]
  | cons b rest ih =>
    rcases List.pairwise_cons.mp h with ⟨hb, hrest⟩
    by_cases hab : a.data < b.data
    · simp only [insertSource, if_pos hab]
      refine List.pairwise_cons.mpr ⟨?_, h⟩
      intro x hx
      rcases List.mem_cons.mp hx with rfl | hx
      · exact strLt_iff.mp hab
      · exact lt_trans (strLt_iff.mp hab) (hb x hx)
    · by_cases heq : a = b
      · subst heq
        simpa [insertSource, hab] using h
      · have hab' : ¬a < b := fun hlt => hab (strLt_iff.mpr hlt)
        have hba : b < a := lt_of_le_of_ne (not_lt.mp hab') (Ne.symm heq)
        simp only [insertSource, if_neg hab, if_neg heq]
        refine List.pairwise_cons.mpr ⟨?_, ih hrest⟩
        intro x hx
        rcases mem_insertSource.mp hx with rfl | hx
        · exact hba
        · exact hb x hx

theorem pairwise_sortedSources (results : List ScoredChunk) :
    (sortedSources results).Pairwise (· < ·) := by
  unfold sortedSources
  induction results.map (·.source) with
  | nil => simp
  | cons s rest ih => exact pairwise_insertSource ih

theorem mem_sortedSources {s : String} {results : List ScoredChunk} :
    s ∈ sortedSources results ↔ s ∈ results.map (·.source) := by
  unfold sortedSources
  induction results.map (·.source) with
  | nil => simp
  | cons x rest ih => simp [mem_insertSource, ih]

/-! ### Claims C1–C3, C9, C10: sanitizer and answer composition -/

/-- Claim C1 (code bug, evaluated at the failing input): with two invalid
bracketed tokens, `_clean_citations` deletes the second one at offsets
recorded before the first deletion, so `[bad2]` survives and the
trailing ` C` is deleted instead; the claim (and the function's own
docstring) say every invalid token is removed with the surrounding text
preserved, which would give `"A  B  C [doc_a@0:10]"` here. -/
theorem c1_clean_citations_stale_spans :
    clean_citations "A [bad1] B [bad2] C" ["doc_a@0:10"] ["doc_a@0:10"] =
      "A  B [bad2] [doc_a@0:10]" := by decide

/-- Claim C2 (counterexample): on the empty generated text the sanitizer
returns immediately (`if not text: return text`), so no fallback block
is appended and the output carries no citation tag at all, contrary to
the claim's "including the empty string". -/
theorem c2_empty_text_counterexample :
    clean_citations "" ["doc_a@0:10"] ["doc_a@0:10"] = "" ∧
      hasSub (bracketTag "doc_a@0:10").data ("" : String).data = false := by
  decide

/-- Claim C2 (amended): for every NON-empty generated text and non-empty
allowed-tag list, if after deletion no allowed bracketed tag remains,
the sanitizer appends the first `min(3, evidence count)` allowed tags,
bracketed and space-separated, after trimming trailing whitespace from
the body — hence the output contains an allowed bracketed tag. -/
theorem c2_fallback_append (text : String) (allowed : List String)
    (htext : text ≠ "") (hne : allowed ≠ [])
    (hleft : anyAllowedLeft allowed (deleteInvalid text.data allowed) = false) :
    clean_citations text allowed (allowed.take 3) =
      String.mk (pyRstrip (deleteInvalid text.data allowed)) ++ " " ++
        joinWith " " ((allowed.take 3).map bracketTag) ∧
    ∃ pre post : String,
      clean_citations text allowed (allowed.take 3) =
        pre ++ bracketTag (allowed.headD "") ++ post := by
  obtain ⟨a, rest, rfl⟩ := List.exists_cons_of_ne_nil hne
  have h1 : clean_citations text (a :: rest) ((a :: rest).take 3) =
      String.mk (pyRstrip (deleteInvalid text.data (a :: rest))) ++ " " ++
        joinWith " " (((a :: rest).take 3).map bracketTag) := by
    unfold clean_citations
    rw [if_neg htext, if_neg (by simp [hleft])]
    simp [List.take_succ_cons]
  refine ⟨h1, ?_⟩
  rw [h1]
  simp only [List.headD_cons, List.take_succ_cons, List.map_cons]
  cases (rest.take 2).map bracketTag with
  | nil =>
    exact ⟨String.mk (pyRstrip (deleteInvalid text.data (a :: rest))) ++ " ", "",
      by simp [joinWith, String.append_assoc]⟩
  | cons y ys =>
    exact ⟨String.mk (pyRstrip (deleteInvalid text.data (a :: rest))) ++ " ",
      " " ++ joinWith " " (y :: ys), by simp [joinWith, String.append_assoc]⟩

/-- Witness for C2 (amended): the spec's own fallback example. -/
theorem c2_fallback_append_witness :
    clean_citations "no citations here" ["doc_a@0:10", "doc_b@5:15"]
        (["doc_a@0:10", "doc_b@5:15"].take 3) =
      "no citations here [doc_a@0:10] [doc_b@5:15]" := by
  rw [(c2_fallback_append "no citations here" ["doc_a@0:10", "doc_b@5:15"]
    (by decide) (by decide) (by decide)).1]
  decide

/-- Claim C3 (code bug, evaluated at the failing input): when the LLM is
configured and the generation HTTP call fails, `answer()` has no
try/except around `llm.synthesize_answer`, so the failure propagates to
the caller instead of falling back to the extractive composition. -/
theorem c3_generation_failure_propagates :
    composeResponse fallbackSystemPrompt true (.error .timeout) [spyScored] =
      .error .timeout := rfl

/-- Claim C9 (counterexample): the extractive answer is NOT just the
evidence texts plus the citation tags — the system prompt is prepended
(`f"{SYSTEM_PROMPT}\n\n" + composed + ...`), so the composed answer
differs from the spec's composition at this concrete input. -/
theorem c9_prompt_prefix_counterexample :
    answerOf (composeResponse fallbackSystemPrompt false (.ok none) [spyScored]) ≠
      specExtractive [spyScored] := by decide

/-- Claim C9 (amended): with no generation capability configured and a
non-empty result list, the composed answer text is exactly the system
prompt, a blank-line separator, then the spec's extractive composition
(evidence texts in rank order separated by blank lines, followed by all
citation tags) — and nothing else. -/
theorem c9_extractive_form (prompt : String)
    (gen : Except GenError (Option String)) (results : List ScoredChunk)
    (resp : AnswerResponse) (hne : results ≠ [])
    (h : composeResponse prompt false gen results = .ok resp) :
    resp.answer = prompt ++ "\n\n" ++ specExtractive results := by
  obtain ⟨r, rest, rfl⟩ := List.exists_cons_of_ne_nil hne
  simp only [composeResponse, Bool.false_eq_true, if_false, Except.ok.injEq] at h
  subst h
  simp [specExtractive, String.append_assoc]

/-- Witness for C9 (amended) at a one-chunk result list. -/
theorem c9_extractive_form_witness :
    (AnswerResponse.mk "p\n\nta\n\n[a.txt@0:2]" [⟨"a.txt", 0, 2⟩] ["a.txt"]
        ⟨0, 1, "rag"⟩).answer = "p" ++ "\n\n" ++ specExtractive [wChunkA] :=
  c9_extractive_form "p" (.ok none) [wChunkA] _ (by simp) rfl

/-- Claim C10 (confirmed): every retrieval-path response built from a
non-empty result list carries one `Citation` per retrieved chunk, in
rank order, with the chunk's `source`/`start`/`end`, and its `sources`
are the distinct retrieved source identifiers in strictly ascending
lexicographic order (strict ascent = sorted and duplicate-free). -/
theorem c10_citations_sources (prompt : String) (cfg : Bool)
    (gen : Except GenError (Option String)) (results : List ScoredChunk)
    (resp : AnswerResponse) (hne : results ≠ [])
    (h : composeResponse prompt cfg gen results = .ok resp) :
    resp.citations = results.map (fun r => ⟨r.source, r.start, r.end_⟩) ∧
    resp.sources.Pairwise (· < ·) ∧
    ∀ s, s ∈ resp.sources ↔ s ∈ results.map (·.source) := by
  obtain ⟨r, rest, rfl⟩ := List.exists_cons_of_ne_nil hne
  simp only [composeResponse] at h
  by_cases hcfg : cfg
  · rw [if_pos hcfg] at h
    cases hgen : synthesize_answer gen with
    | error e => rw [hgen] at h; cases h
    | ok raw =>
      rw [hgen] at h
      simp only [Except.ok.injEq] at h
      subst h
      exact ⟨rfl, pairwise_sortedSources _, fun s => mem_sortedSources⟩
  · rw [if_neg hcfg] at h
    simp only [Except.ok.injEq] at h
    subst h
    exact ⟨rfl, pairwise_sortedSources _, fun s => mem_sortedSources⟩

/-- Witness for C10: three results, two sharing a source, out of order. -/
theorem c10_citations_sources_witness :
    (AnswerResponse.mk "p\n\ntb\n\nta\n\ntc\n\n[b.txt@3:7] [a.txt@0:2] [b.txt@8:9]"
        [⟨"b.txt", 3, 7⟩, ⟨"a.txt", 0, 2⟩, ⟨"b.txt", 8, 9⟩]
        ["a.txt", "b.txt"] ⟨0, 3, "rag"⟩).citations =
      [wChunkB, wChunkA, wChunkB2].map (fun r => ⟨r.source, r.start, r.end_⟩) ∧
    (["a.txt", "b.txt"] : List String).Pairwise (· < ·) ∧
    ∀ s, s ∈ (["a.txt", "b.txt"] : List String) ↔
      s ∈ [wChunkB, wChunkA, wChunkB2].map (·.source) :=
  c10_citations_sources "p" false (.ok none) [wChunkB, wChunkA, wChunkB2]
    ⟨"p\n\ntb\n\nta\n\ntc\n\n[b.txt@3:7] [a.txt@0:2] [b.txt@8:9]",
      [⟨"b.txt", 3, 7⟩, ⟨"a.txt", 0, 2⟩, ⟨"b.txt", 8, 9⟩],
      ["a.txt", "b.txt"], ⟨0, 3, "rag"⟩⟩
    (by simp) (by decide)

/-! ### Score-normalisation lemmas and claims C7, C8 -/

theorem listMin_le : ∀ {arr : List ℝ}, ∀ x ∈ arr, listMin arr ≤ x
  | [y], x, hx => by
    rcases List.mem_singleton.mp hx with rfl
    simp [listMin]
  | y :: z :: xs, x, hx => by
    rcases List.mem_cons.mp hx with rfl | hx'
    · simp [listMin]
    · exact le_trans (min_le_right _ _) (listMin_le x hx')

theorem le_listMax : ∀ {arr : List ℝ}, ∀ x ∈ arr, x ≤ listMax arr
  | [y], x, hx => by
    rcases List.mem_singleton.mp hx with rfl
    simp [listMax]
  | y :: z :: xs, x, hx => by
    rcases List.mem_cons.mp hx with rfl | hx'
    · simp [listMax]
    · exact le_trans (le_listMax x hx') (le_max_right _ _)

/-- Claim C7 (confirmed): on every non-empty score array, `normalize`
returns values in `[0, 1]`; a flat array (`max - min < 1e-9`, which
covers the all-zero case) maps to all zeros of the same length, and
otherwise every entry is `(score - min) / (max - min)`. -/
theorem c7_normalize_bounds (arr : List ℝ) (h : arr ≠ []) :
    (∀ x ∈ normalize arr, 0 ≤ x ∧ x ≤ 1) ∧
    (listMax arr - listMin arr < epsNorm →
      normalize arr = List.replicate arr.length 0) ∧
    (¬ listMax arr - listMin arr < epsNorm →
      normalize arr = arr.map (fun s => (s - listMin arr) / (listMax arr - listMin arr))) := by
  obtain ⟨a, rest, rfl⟩ := List.exists_cons_of_ne_nil h
  have hn : normalize (a :: rest) =
      if listMax (a :: rest) - listMin (a :: rest) < epsNorm then
        List.replicate (a :: rest).length 0
      else (a :: rest).map
        (fun s => (s - listMin (a :: rest)) / (listMax (a :: rest) - listMin (a :: rest))) := rfl
  by_cases hc : listMax (a :: rest) - listMin (a :: rest) < epsNorm
  · rw [hn, if_pos hc]
    refine ⟨?_, fun _ => rfl, fun hcontra => absurd hc hcontra⟩
    intro x hx
    rw [List.eq_of_mem_replicate hx]
    norm_num
  · rw [hn, if_neg hc]
    have hpos : 0 < listMax (a :: rest) - listMin (a :: rest) := by
      have : epsNorm ≤ listMax (a :: rest) - listMin (a :: rest) := not_lt.mp hc
      have heps : (0:ℝ) < epsNorm := by norm_num [epsNorm]
      linarith
    refine ⟨?_, fun hcontra => absurd hcontra hc, fun _ => rfl⟩
    intro x hx
    rcases List.mem_map.mp hx with ⟨s, hs, rfl⟩
    constructor
    · exact div_nonneg (by linarith [listMin_le s hs]) (le_of_lt hpos)
    · rw [div_le_one hpos]
      linarith [le_listMax s hs]

/-- Witness for C7 on the concrete array `[0, 1, 2]`. -/
theorem c7_normalize_bounds_witness :
    (∀ x ∈ normalize [(0:ℝ), 1, 2], 0 ≤ x ∧ x ≤ 1) ∧
    (listMax [(0:ℝ), 1, 2] - listMin [(0:ℝ), 1, 2] < epsNorm →
      normalize [(0:ℝ), 1, 2] = List.replicate ([(0:ℝ), 1, 2]).length 0) ∧
    (¬ listMax [(0:ℝ), 1, 2] - listMin [(0:ℝ), 1, 2] < epsNorm →
      normalize [(0:ℝ), 1, 2] = ([(0:ℝ), 1, 2]).map
        (fun s => (s - listMin [(0:ℝ), 1, 2]) / (listMax [(0:ℝ), 1, 2] - listMin [(0:ℝ), 1, 2]))) :=
  c7_normalize_bounds [(0:ℝ), 1, 2] (by simp)

/-- Claim C8 (confirmed): the corpus IDF is the smoothed
`ln((N + 1)/(df + 1)) + 1` over `N = max(1, chunk count)`, and it is
strictly positive for every vocabulary term — including terms occurring
in every chunk, since `df ≤ N` keeps the log argument at least `1`. -/
theorem c8_idf_positive (tokdocs : List (List String)) (t : String)
    (_hmem : t ∈ vocabList tokdocs) :
    idf tokdocs t =
      Real.log (((nDocs tokdocs : ℝ) + 1) / ((docFreq tokdocs t : ℝ) + 1)) + 1 ∧
    0 < idf tokdocs t := by
  refine ⟨rfl, ?_⟩
  have hdf : docFreq tokdocs t ≤ nDocs tokdocs :=
    le_trans (List.countP_le_length _) (le_max_right 1 _)
  have hdf' : (docFreq tokdocs t : ℝ) ≤ (nDocs tokdocs : ℝ) := by exact_mod_cast hdf
  have hden : (0:ℝ) < (docFreq tokdocs t : ℝ) + 1 := by positivity
  have harg : (1:ℝ) ≤ ((nDocs tokdocs : ℝ) + 1) / ((docFreq tokdocs t : ℝ) + 1) :=
    (one_le_div hden).mpr (by linarith)
  have hlog := Real.log_nonneg harg
  unfold idf
  linarith

/-- Witness for C8 on the one-document corpus of the end-to-end scenario. -/
theorem c8_idf_positive_witness :
    "spy" ∈ vocabList [tokenize "SPY rallied in Q2 amid macro tailwinds"] ∧
    0 < idf [tokenize "SPY rallied in Q2 amid macro tailwinds"] "spy" :=
  ⟨by decide, (c8_idf_positive _ _ (by decide)).2⟩

/-! ### Ranking-length lemmas and claim C4 -/

theorem length_insertByDesc (s : List ℝ) (i : Nat) :
    ∀ l : List Nat, (insertByDesc s i l).length = l.length + 1
  | [] => rfl
  | j :: js => by
    simp only [insertByDesc]
    split
    · simp
    · simp [length_insertByDesc s i js]

theorem length_argsortDesc (s : List ℝ) : (argsortDesc s).length = s.length := by
  unfold argsortDesc
  have haux : ∀ l : List Nat,
      (l.foldr (fun i acc => insertByDesc s i acc) []).length = l.length := by
    intro l
    induction l with
    | nil => rfl
    | cons x xs ih => simp [List.foldr_cons, length_insertByDesc, ih]
  rw [haux, List.length_range]

theorem length_normalize (a : List ℝ) : (normalize a).length = a.length := by
  cases a with
  | nil => rfl
  | cons x xs =>
    by_cases h : listMax (x :: xs) - listMin (x :: xs) < epsNorm
    · simp [normalize, h]
    · simp [normalize, h]

theorem length_pySliceTo (k : Int) (l : List α) :
    (pySliceTo k l).length =
      if 0 ≤ k then min k.toNat l.length else l.length - (-k).toNat := by
  unfold pySliceTo
  split
  · rw [List.length_take]
  · rw [List.length_take, Nat.min_eq_left (Nat.sub_le _ _)]

theorem search_length (chunks : List Chunk) (alpha : ℝ) (q : String) (k : Int) :
    (search chunks alpha q k).length =
      if 0 ≤ k then min k.toNat chunks.length else chunks.length - (-k).toNat := by
  cases chunks with
  | nil =>
    show (0:Nat) = _
    split
    · rw [List.length_nil, Nat.min_zero]
    · rw [List.length_nil, Nat.zero_sub]
  | cons c cs =>
    show ((pySliceTo k (argsortDesc _)).map _).length = _
    rw [List.length_map, length_pySliceTo, length_argsortDesc,
      List.length_zipWith, length_normalize, length_normalize]
    have h1 : (okapiScores ((c :: cs).map (fun x => tokenize x.text)) (tokenize q)).length =
        (c :: cs).length := by
      rw [okapiScores, List.length_map, List.length_map]
    have h2 : (((c :: cs).map (fun x => tokenize x.text)).map
        (fun doctoks => cosineSparse (tfKeys ((c :: cs).map (fun x => tokenize x.text)) (tokenize q))
          (tfidfVec ((c :: cs).map (fun x => tokenize x.text)) (tokenize q))
          (tfidfVec ((c :: cs).map (fun x => tokenize x.text)) doctoks))).length =
        (c :: cs).length := by
      rw [List.length_map, List.length_map]
    rw [h1, h2, Nat.min_self]

/-- Claim C4 (amended): the result is at most `k` long for non-negative
`k`, and empty for `k = 0`; but a negative `k` is a Python slice bound,
so `search` then returns all but the `|k|` lowest-ranked chunks —
non-empty whenever the corpus has more than `|k|` chunks — rather than
the empty sequence the claim states for every `k ≤ 0`. -/
theorem c4_search_length (chunks : List Chunk) (alpha : ℝ) (q : String) (k : Int) :
    (0 ≤ k → (search chunks alpha q k).length ≤ k.toNat) ∧
    (k = 0 → search chunks alpha q k = []) ∧
    (k < 0 → (search chunks alpha q k).length = chunks.length - (-k).toNat) := by
  refine ⟨?_, ?_, ?_⟩
  · intro hk
    rw [search_length, if_pos hk]
    exact min_le_left _ _
  · rintro rfl
    have h := search_length chunks alpha q 0
    rw [if_pos le_rfl] at h
    simp only [Int.toNat_zero, Nat.zero_min] at h
    exact List.eq_nil_of_length_eq_zero h
  · intro hk
    rw [search_length, if_neg (not_le.mpr hk)]

/-- Claim C4 (counterexample): on a two-chunk corpus, `search` with
`k = -1` returns one chunk, not the empty sequence the claim requires
for every `k ≤ 0`. -/
theorem c4_negative_k_counterexample :
    search [chunkA, chunkB] (65/100) "anything" (-1) ≠ [] := by
  intro hnil
  have h := search_length [chunkA, chunkB] (65/100) "anything" (-1)
  rw [hnil, if_neg (by norm_num)] at h
  simp at h

/-- Witness for C4 (amended) at `k = -1` on the two-chunk corpus. -/
theorem c4_search_length_witness :
    (search [chunkA, chunkB] (65/100) "anything" (-1)).length = 1 := by
  have h := (c4_search_length [chunkA, chunkB] (65/100) "anything" (-1)).2.2
    (by norm_num)
  simpa using h

/-! ### Single-chunk evaluation and claim C6 -/

theorem normalize_single (x : ℝ) : normalize [x] = [0] := by
  have hflat : listMax [x] - listMin [x] < epsNorm := by
    simp only [listMax, listMin, sub_self]
    norm_num [epsNorm]
  show (if listMax [x] - listMin [x] < epsNorm then List.replicate 1 (0:ℝ)
    else [x].map (fun s => (s - listMin [x]) / (listMax [x] - listMin [x]))) = [0]
  rw [if_pos hflat]
  rfl

theorem argsortDesc_single (x : ℝ) : argsortDesc [x] = [0] := by
  show (List.range 1).foldr (fun i acc => insertByDesc [x] i acc) [] = [0]
  rw [show List.range 1 = [0] by decide]
  rfl

theorem search_single (c : Chunk) (alpha : ℝ) (q : String) (k : Int)
    (hk : 1 ≤ k) :
    search [c] alpha q k = [⟨c.source, c.start, c.end_, c.text, 0, 0, 0⟩] := by
  show (pySliceTo k (argsortDesc (List.zipWith _
      (normalize (okapiScores ([c].map (fun x => tokenize x.text)) (tokenize q)))
      (normalize (([c].map (fun x => tokenize x.text)).map _))))).map _ = _
  have h1 : okapiScores ([c].map (fun x => tokenize x.text)) (tokenize q) =
      [okapiScoreDoc ([c].map (fun x => tokenize x.text)) (tokenize q) (tokenize c.text)] := rfl
  rw [h1]
  simp only [List.map_cons, List.map_nil]
  rw [normalize_single, normalize_single]
  have h3 : List.zipWith (fun bn tn => alpha * bn + (1 - alpha) * tn) [(0:ℝ)] [(0:ℝ)] =
      [0] := by
    simp
  rw [h3, argsortDesc_single]
  have h4 : pySliceTo k [(0:Nat)] = [0] := by
    unfold pySliceTo
    rw [if_pos (by omega : (0:Int) ≤ k)]
    exact List.take_of_length_le (by simpa using (by omega : 1 ≤ k.toNat))
  rw [h4]
  rfl

/-- Claim C6 (counterexample): for the single-chunk corpus the returned
hybrid score is `0.0`, not the claimed `1.0` — a one-element score
array falls into the flat branch of min-max normalisation. -/
theorem c6_score_counterexample :
    (search [spyChunk] (65/100) spyQuery 3).map ScoredChunk.score ≠ [1] := by
  rw [search_single spyChunk (65/100) spyQuery 3 (by norm_num)]
  intro hcontra
  simp only [List.map_cons, List.map_nil, List.cons.injEq, and_true] at hcontra
  exact zero_ne_one hcontra

/-- Claim C6 (amended): the single-chunk search returns exactly that chunk
with hybrid, BM25 and TF-IDF scores all `0.0`, and the composed
response (extractive path) still has the non-empty citation list
`[q2_letter.html@0:20]` and sources exactly `["q2_letter.html"]`. -/
theorem c6_single_chunk_end_to_end :
    search [spyChunk] (65/100) spyQuery 3 = [spyScored] ∧
    (composeResponse fallbackSystemPrompt false (.ok none)
        (search [spyChunk] (65/100) spyQuery 3)).map
      (fun r => (r.citations, r.sources)) =
      .ok ([⟨"q2_letter.html", 0, 20⟩], ["q2_letter.html"]) := by
  have h : search [spyChunk] (65/100) spyQuery 3 = [spyScored] :=
    search_single spyChunk (65/100) spyQuery 3 (by norm_num)
  exact ⟨h, by rw [h]; rfl⟩

end RagSpec
